import Mathlib

/-!
Verification of the object codec and content-addressed object store of
the a-git repository (src/src/object.go), via a shallow embedding in Lean.

Byte strings are modelled as `List Nat` (one entry per byte).  The
filesystem is modelled as an association list from paths to file
contents; external library collaborators (Go's compress/zlib,
crypto/sha1, encoding/hex, strconv.Itoa, path.Join) are modelled
faithfully: SHA-1, hex encoding and Itoa are implemented in full, zlib
is modelled as a header + payload + Adler-32 trailer stream whose
decompression checks header and checksum, and path.Join is modelled as
"/"-joining (sufficient for clean path components).  Go's runtime panic
on out-of-range slicing is modelled by an explicit `panic` outcome.
-/

namespace AGit

/-- Errors surfaced by the store, standing for the Go error values
returned by os/ioutil (file does not exist) and compress/zlib
(bad header, truncated stream, checksum mismatch). -/
inductive GoErr where
  | notFound
  | corrupt
  deriving DecidableEq, Repr

/-- Outcome of a Go function call that returns a value together with an
error, and that may also panic at runtime (e.g. on out-of-range
slicing): `ret v e` models a normal return of value `v` and error `e`,
`panic` models a runtime panic. -/
inductive GoOutcome (α : Type) where
  | ret (val : α) (err : Option GoErr)
  | panic
  deriving DecidableEq, Repr

/-- GitObject - Git object type with kind, size, and data
(src/src/object.go lines 20-24).  Go strings are byte strings, so
`Kind` and `Size` are byte lists like `Data`. -/
structure GitObject where
  Kind : List Nat
  Size : List Nat
  Data : List Nat
  deriving DecidableEq, Repr

/-- The filesystem: an association list from paths to file contents.
Insertion shadows earlier entries, so lookup sees the newest write. -/
abbrev FS : Type := List (String × List Nat)

/-- Structural worker for `natDigits`: the first argument is fuel, kept
at least as large as the number so that the recursion is never cut
short (the fuel-0 branch is only reached at numbers below 10, where it
is already correct). -/
def natDigitsAux : Nat → Nat → List Nat
  | 0, n => [48 + n % 10]
  | fuel + 1, n =>
    if n < 10 then [48 + n]
    else natDigitsAux fuel (n / 10) ++ [48 + n % 10]

/-- ASCII decimal digits of a natural number, most significant first
(value model of Go's strconv.Itoa on non-negative input). -/
def natDigits (n : Nat) : List Nat := natDigitsAux n n

/-- Go's strconv.Itoa: ASCII decimal rendering of an integer, with a
leading minus sign (byte 45) when negative. -/
def itoa (i : Int) : List Nat :=
  if i < 0 then 45 :: natDigits i.natAbs else natDigits i.toNat

/-- Numeric value of a list of ASCII decimal digits (spec-side reader,
used to state what the rendered size field denotes). -/
def decVal (l : List Nat) : Nat :=
  l.foldl (fun acc b => acc * 10 + (b - 48)) 0

/-- bytes.IndexByte: index of the first occurrence of byte `b`, `none`
when absent (Go returns -1). -/
def indexByte (l : List Nat) (b : Nat) : Option Nat :=
  match l with
  | [] => none
  | a :: t => if a = b then some 0 else (indexByte t b).map (· + 1)

/-- Frame construction of GitObject.Write (src/src/object.go lines
29-35): `bytes.Join([bKind, " ", bSize, {0x00}, bData], "")` with
`bSize = strconv.Itoa(len(bData) - 1)`. -/
def encodeFrame (kind data : List Nat) : List Nat :=
  kind ++ [32] ++ itoa (Int.ofNat data.length - 1) ++ [0] ++ data

/-- Frame parsing of ReadObject (src/src/object.go lines 121-128):
`x := bytes.IndexByte(fData, ' ')`, `y := bytes.IndexByte(fData, 0x00)`,
then the slices `fData[:x]`, `fData[x+1:y]`, `fData[y+1:]`.  Go panics
when `x = -1` (slice `fData[:-1]`) or when `y < x+1` (inverted slice
`fData[x+1:y]`, including `y = -1`); both panics are modelled
explicitly. -/
def decodeFrame (fData : List Nat) : GoOutcome GitObject :=
  match indexByte fData 32, indexByte fData 0 with
  | none, _ => .panic
  | some _, none => .panic
  | some x, some y =>
    if y < x + 1 then .panic
    else .ret ⟨fData.take x, (fData.drop (x + 1)).take (y - (x + 1)), fData.drop (y + 1)⟩ none

/-- Adler-32 checksum, as appended by zlib to every stream. -/
def adler32 (data : List Nat) : Nat :=
  let s := data.foldl (fun p b => ((p.1 + b) % 65521, (p.2 + p.1 + b) % 65521)) (1, 0)
  s.2 * 65536 + s.1

/-- Big-endian 4-byte rendering of a 32-bit value. -/
def be32 (x : Nat) : List Nat :=
  [x / 16777216 % 256, x / 65536 % 256, x / 256 % 256, x % 256]

/-- Model of Go's compress/zlib writer: a two-byte zlib header, the
payload, and the big-endian Adler-32 checksum of the payload. -/
def zlibCompress (data : List Nat) : List Nat :=
  120 :: 156 :: (data ++ be32 (adler32 data))

/-- Model of Go's compress/zlib reader: fails (as zlib.NewReader or the
subsequent read does) on a bad header, a truncated stream, or a
checksum mismatch; otherwise returns the payload. -/
def zlibDecompress (s : List Nat) : Except GoErr (List Nat) :=
  if s.take 2 = [120, 156] then
    let rest := s.drop 2
    if 4 ≤ rest.length then
      let data := rest.take (rest.length - 4)
      if rest.drop (rest.length - 4) = be32 (adler32 data) then .ok data
      else .error .corrupt
    else .error .corrupt
  else .error .corrupt

/-- Modulus of 32-bit arithmetic. -/
def w32 : Nat := 4294967296

/-- Left rotation of a 32-bit word by `k` bits. -/
def rotl (k x : Nat) : Nat :=
  (x * 2 ^ k + x / 2 ^ (32 - k)) % w32

/-- Big-endian 8-byte rendering of a 64-bit value. -/
def be64 (x : Nat) : List Nat :=
  [x / 72057594037927936 % 256, x / 281474976710656 % 256, x / 1099511627776 % 256,
   x / 4294967296 % 256, x / 16777216 % 256, x / 65536 % 256, x / 256 % 256, x % 256]

/-- SHA-1 padding: a 0x80 byte, zeros to 56 mod 64, then the bit length
as a big-endian 64-bit value. -/
def sha1pad (msg : List Nat) : List Nat :=
  msg ++ 128 :: List.replicate ((119 - msg.length % 64) % 64) 0 ++ be64 (msg.length * 8)

/-- Split a byte list into 64-byte chunks. -/
def chunks64 (l : List Nat) : List (List Nat) :=
  if _h : l.length = 0 then []
  else l.take 64 :: chunks64 (l.drop 64)
  termination_by l.length
  decreasing_by simp only [List.length_drop]; omega

/-- 32-bit big-endian word `i` of a chunk. -/
def word (chunk : List Nat) (i : Nat) : Nat :=
  chunk.getD (4 * i) 0 * 2 ^ 24 + chunk.getD (4 * i + 1) 0 * 2 ^ 16 +
    chunk.getD (4 * i + 2) 0 * 2 ^ 8 + chunk.getD (4 * i + 3) 0

/-- First `n` entries of the SHA-1 message schedule of a chunk. -/
def wlist (chunk : List Nat) : Nat → List Nat
  | 0 => []
  | n + 1 =>
    let prev := wlist chunk n
    prev ++ [if n < 16 then word chunk n
             else rotl 1 ((prev.getD (n - 3) 0 ^^^ prev.getD (n - 8) 0) ^^^
                          (prev.getD (n - 14) 0 ^^^ prev.getD (n - 16) 0))]

/-- SHA-1 round function for round `i`. -/
def sha1f (i b c d : Nat) : Nat :=
  if i < 20 then (b &&& c) ||| (((w32 - 1) ^^^ b) &&& d)
  else if i < 40 then (b ^^^ c) ^^^ d
  else if i < 60 then ((b &&& c) ||| (b &&& d)) ||| (c &&& d)
  else (b ^^^ c) ^^^ d

/-- SHA-1 round constant for round `i`. -/
def sha1k (i : Nat) : Nat :=
  if i < 20 then 0x5A827999
  else if i < 40 then 0x6ED9EBA1
  else if i < 60 then 0x8F1BBCDC
  else 0xCA62C1D6

/-- The 80 SHA-1 rounds over message schedule `w`. -/
def sha1rounds (w : List Nat) (st : Nat × Nat × Nat × Nat × Nat) : Nat × Nat × Nat × Nat × Nat :=
  (List.range 80).foldl
    (fun s i =>
      let (a, b, c, d, e) := s
      let temp := (rotl 5 a + sha1f i b c d + e + sha1k i + w.getD i 0) % w32
      (temp, a, rotl 30 b, c, d))
    st

/-- Process one 64-byte chunk into the running SHA-1 state. -/
def sha1chunk (st : Nat × Nat × Nat × Nat × Nat) (chunk : List Nat) :
    Nat × Nat × Nat × Nat × Nat :=
  let (a, b, c, d, e) := sha1rounds (wlist chunk 80) st
  let (h0, h1, h2, h3, h4) := st
  ((h0 + a) % w32, (h1 + b) % w32, (h2 + c) % w32, (h3 + d) % w32, (h4 + e) % w32)

/-- SHA-1 digest of a byte list, as 20 bytes (model of Go's
crypto/sha1 as used at src/src/object.go lines 38-40). -/
def sha1 (msg : List Nat) : List Nat :=
  let st := (chunks64 (sha1pad msg)).foldl sha1chunk
    (0x67452301, 0xEFCDAB89, 0x98BADCFE, 0x10325476, 0xC3D2E1F0)
  be32 st.1 ++ be32 st.2.1 ++ be32 st.2.2.1 ++ be32 st.2.2.2.1 ++ be32 st.2.2.2.2

/-- Lowercase hexadecimal character of a nibble (hex.EncodeToString's
alphabet "0123456789abcdef"). -/
def hexChar (n : Nat) : Char :=
  if n < 10 then Char.ofNat (48 + n) else Char.ofNat (87 + n)

/-- hex.EncodeToString: lowercase hex rendering of a byte list, high
nibble first (src/src/object.go line 43). -/
def hexEncode (bs : List Nat) : String :=
  String.mk (bs.flatMap (fun b => [hexChar (b / 16), hexChar (b % 16)]))

/-- Go string slicing s[:n] on ASCII strings. -/
def strTake (n : Nat) (s : String) : String := String.mk (s.data.take n)

/-- Go string slicing s[n:] on ASCII strings. -/
def strDrop (n : Nat) (s : String) : String := String.mk (s.data.drop n)

/-- Content address of an object: the lowercase hex SHA-1 of its
encoded frame (src/src/object.go lines 38-43). -/
def addressOf (obj : GitObject) : String :=
  hexEncode (sha1 (encodeFrame obj.Kind obj.Data))

/-- Path where Write places the object:
path.Join(gitdir, "objects", shaStr[:2], shaStr[2:]) (src/src/object.go
lines 46-52), modelled as "/"-joining; filepath.Abs is modelled as the
identity (path resolution is outside the store's contract). -/
def writePath (obj : GitObject) (gitdir : String) : String :=
  gitdir ++ "/objects/" ++ strTake 2 (addressOf obj) ++ "/" ++ strDrop 2 (addressOf obj)

/-- GitObject.Write (src/src/object.go lines 27-78): build the frame,
hash it, derive the fan-out path, compress and write.  MkdirAll,
os.Create and the file write are modelled as always succeeding (the
claims under verification concern successful writes); the returned
string is the hex address, and the new filesystem maps the derived
path to the compressed frame. -/
def Write (obj : GitObject) (gitdir : String) (fs : FS) : String × FS :=
  let content := encodeFrame obj.Kind obj.Data
  let shaStr := hexEncode (sha1 content)
  let nFilePath := gitdir ++ "/objects/" ++ strTake 2 shaStr ++ "/" ++ strDrop 2 shaStr
  (shaStr, (nFilePath, zlibCompress content) :: fs)

/-- ReadObjectFile (src/src/object.go lines 81-104): read the file,
decompress with zlib.  Go returns `(nil, err)` on failure, modelled by
`Except`: the error case carries no frame bytes. -/
def ReadObjectFile (fs : FS) (objectpath : String) : Except GoErr (List Nat) :=
  match fs.lookup objectpath with
  | none => .error .notFound
  | some data => zlibDecompress data

/-- ReadObject (src/src/object.go lines 107-129): stat the path
(missing file yields the "Specifies file does not exist" error and an
empty GitObject), read and decompress, then parse the frame as in
`decodeFrame`. -/
def ReadObject (fs : FS) (objectpath : String) : GoOutcome GitObject :=
  match fs.lookup objectpath with
  | none => .ret ⟨[], [], []⟩ (some .notFound)
  | some _ =>
    match ReadObjectFile fs objectpath with
    | .error e => .ret ⟨[], [], []⟩ (some e)
    | .ok fData => decodeFrame fData

/-! ## Helper lemmas about digits and Itoa -/

theorem natDigitsAux_bounds (fuel : Nat) :
    ∀ n, ∀ b ∈ natDigitsAux fuel n, 48 ≤ b ∧ b ≤ 57 := by
  induction fuel with
  | zero =>
    intro n b hb
    simp only [natDigitsAux, List.mem_singleton] at hb
    have hm : n % 10 < 10 := Nat.mod_lt _ (by omega)
    omega
  | succ fuel ih =>
    intro n b hb
    simp only [natDigitsAux] at hb
    by_cases h : n < 10
    · rw [if_pos h] at hb
      simp only [List.mem_singleton] at hb
      omega
    · rw [if_neg h] at hb
      rcases List.mem_append.1 hb with h1 | h1
      · exact ih _ b h1
      · simp only [List.mem_singleton] at h1
        have hm : n % 10 < 10 := Nat.mod_lt _ (by omega)
        omega

theorem natDigits_bounds (n : Nat) : ∀ b ∈ natDigits n, 48 ≤ b ∧ b ≤ 57 :=
  natDigitsAux_bounds n n

theorem decVal_append_last (xs : List Nat) (d : Nat) :
    decVal (xs ++ [d]) = decVal xs * 10 + (d - 48) := by
  simp [decVal, List.foldl_append]

theorem decVal_natDigitsAux (fuel : Nat) :
    ∀ n, n ≤ fuel → decVal (natDigitsAux fuel n) = n := by
  induction fuel with
  | zero =>
    intro n hn
    have hz : n = 0 := by omega
    subst hz
    simp [natDigitsAux, decVal]
  | succ fuel ih =>
    intro n hn
    simp only [natDigitsAux]
    by_cases h : n < 10
    · rw [if_pos h]
      simp [decVal]
    · rw [if_neg h]
      have hdiv : n / 10 < n := Nat.div_lt_self (by omega) (by omega)
      rw [decVal_append_last, ih (n / 10) (by omega)]
      have hm : n % 10 < 10 := Nat.mod_lt _ (by omega)
      omega

theorem decVal_natDigits (n : Nat) : decVal (natDigits n) = n :=
  decVal_natDigitsAux n n (Nat.le_refl n)

theorem itoa_bounds (i : Int) : ∀ b ∈ itoa i, b = 45 ∨ (48 ≤ b ∧ b ≤ 57) := by
  intro b hb
  simp only [itoa] at hb
  by_cases h : i < 0
  · rw [if_pos h] at hb
    rcases List.mem_cons.1 hb with h1 | h1
    · exact Or.inl h1
    · exact Or.inr (natDigitsAux_bounds _ _ b h1)
  · rw [if_neg h] at hb
    exact Or.inr (natDigitsAux_bounds _ _ b hb)

theorem itoa_ne_space (i : Int) : ∀ b ∈ itoa i, b ≠ 32 := by
  intro b hb
  rcases itoa_bounds i b hb with h | h <;> omega

theorem itoa_ne_null (i : Int) : ∀ b ∈ itoa i, b ≠ 0 := by
  intro b hb
  rcases itoa_bounds i b hb with h | h <;> omega

/-! ## Helper lemmas about indexByte and list slicing -/

theorem indexByte_first (l1 l2 : List Nat) (b : Nat) (h : ∀ a ∈ l1, a ≠ b) :
    indexByte (l1 ++ b :: l2) b = some l1.length := by
  induction l1 with
  | nil => simp [indexByte]
  | cons a t ih =>
    have ha : a ≠ b := h a (List.mem_cons_self a t)
    simp only [List.cons_append, indexByte, if_neg ha, List.append_eq]
    rw [ih (fun x hx => h x (List.mem_cons_of_mem a hx))]
    simp

theorem take_len_append (l1 l2 : List Nat) : (l1 ++ l2).take l1.length = l1 := by
  induction l1 with
  | nil => simp
  | cons a t ih => simp [ih]

theorem drop_len_append (l1 l2 : List Nat) : (l1 ++ l2).drop l1.length = l2 := by
  induction l1 with
  | nil => simp
  | cons a t ih => simp [ih]

/-! ## Decoding a well-formed frame -/

theorem decodeFrame_exact (kind sz data : List Nat)
    (hks : ∀ b ∈ kind, b ≠ 32) (hkn : ∀ b ∈ kind, b ≠ 0) (hsn : ∀ b ∈ sz, b ≠ 0) :
    decodeFrame (kind ++ 32 :: (sz ++ 0 :: data)) = .ret ⟨kind, sz, data⟩ none := by
  have h32 : indexByte (kind ++ 32 :: (sz ++ 0 :: data)) 32 = some kind.length :=
    indexByte_first kind _ 32 hks
  have hshape : kind ++ 32 :: (sz ++ 0 :: data) = (kind ++ 32 :: sz) ++ 0 :: data := by
    simp
  have h0 : indexByte (kind ++ 32 :: (sz ++ 0 :: data)) 0 =
      some (kind.length + (sz.length + 1)) := by
    rw [hshape]
    have := indexByte_first (kind ++ 32 :: sz) data 0 (by
      intro a ha
      rcases List.mem_append.1 ha with h1 | h1
      · exact hkn a h1
      · rcases List.mem_cons.1 h1 with h2 | h2
        · omega
        · exact hsn a h2)
    rw [this]
    simp
  simp only [decodeFrame, h32, h0]
  rw [if_neg (by omega)]
  have ht1 : (kind ++ 32 :: (sz ++ 0 :: data)).take kind.length = kind :=
    take_len_append kind _
  have hd1 : (kind ++ 32 :: (sz ++ 0 :: data)).drop (kind.length + 1) = sz ++ 0 :: data := by
    have e0 : kind ++ 32 :: (sz ++ 0 :: data) = (kind ++ [32]) ++ (sz ++ 0 :: data) := by
      simp
    have e1 : (kind ++ [32]).length = kind.length + 1 := by simp
    rw [e0, ← e1, drop_len_append]
  have e2 : kind.length + (sz.length + 1) - (kind.length + 1) = sz.length := by omega
  have hd3 : (kind ++ 32 :: (sz ++ 0 :: data)).drop (kind.length + (sz.length + 1) + 1) =
      data := by
    have e3 : kind ++ 32 :: (sz ++ 0 :: data) = (kind ++ 32 :: (sz ++ [0])) ++ data := by
      simp
    have e4 : (kind ++ 32 :: (sz ++ [0])).length = kind.length + (sz.length + 1) + 1 := by
      simp only [List.length_append, List.length_cons, List.length_nil]
      omega
    rw [e3, ← e4, drop_len_append]
  rw [ht1, hd1, e2, hd3, take_len_append]

/-- Decoding an encoded frame: the kind and payload round-trip, the
size field carries the Itoa rendering of the payload length minus one. -/
theorem decodeFrame_encodeFrame (kind data : List Nat)
    (hks : ∀ b ∈ kind, b ≠ 32) (hkn : ∀ b ∈ kind, b ≠ 0) :
    decodeFrame (encodeFrame kind data) =
      .ret ⟨kind, itoa (Int.ofNat data.length - 1), data⟩ none := by
  have he : encodeFrame kind data =
      kind ++ 32 :: (itoa (Int.ofNat data.length - 1) ++ 0 :: data) := by
    simp [encodeFrame]
  rw [he]
  exact decodeFrame_exact kind _ data hks hkn (itoa_ne_null _)

/-! ## Compression round-trip -/

theorem zlibDecompress_zlibCompress (d : List Nat) :
    zlibDecompress (zlibCompress d) = .ok d := by
  have hlen : (be32 (adler32 d)).length = 4 := by simp [be32]
  have hheader : (120 :: 156 :: (d ++ be32 (adler32 d))).take 2 = [120, 156] := rfl
  have hdrop : (120 :: 156 :: (d ++ be32 (adler32 d))).drop 2 = d ++ be32 (adler32 d) := rfl
  have h1 : (d ++ be32 (adler32 d)).length = d.length + 4 := by simp [hlen]
  simp only [zlibCompress, zlibDecompress]
  rw [if_pos hheader, hdrop, h1, if_pos (by omega)]
  have e : d.length + 4 - 4 = d.length := by omega
  rw [e, take_len_append, drop_len_append, if_pos rfl]

theorem lookup_cons_self (p : String) (v : List Nat) (fs : FS) :
    List.lookup p ((p, v) :: fs) = some v := by
  simp [List.lookup]

/-! ## Store round-trip and address shape -/

/-- Reading back the file just written by Write yields the kind and
payload verbatim; the size field carries Itoa of payload length minus
one. -/
theorem ReadObject_Write (obj : GitObject) (gitdir : String) (fs : FS)
    (hks : ∀ b ∈ obj.Kind, b ≠ 32) (hkn : ∀ b ∈ obj.Kind, b ≠ 0) :
    ReadObject (Write obj gitdir fs).2 (writePath obj gitdir) =
      .ret ⟨obj.Kind, itoa (Int.ofNat obj.Data.length - 1), obj.Data⟩ none := by
  simp only [Write, writePath, addressOf, ReadObject, ReadObjectFile, lookup_cons_self,
    zlibDecompress_zlibCompress]
  exact decodeFrame_encodeFrame obj.Kind obj.Data hks hkn

theorem sha1_length (msg : List Nat) : (sha1 msg).length = 20 := by
  simp [sha1, be32]

theorem sha1_lt (msg : List Nat) : ∀ b ∈ sha1 msg, b < 256 := by
  intro b hb
  simp only [sha1, be32, List.mem_append, List.mem_cons, List.not_mem_nil, or_false] at hb
  omega

/-- The sixteen characters hex.EncodeToString can emit. -/
def hexAlphabet : List Char := "0123456789abcdef".toList

theorem hexChar_mem : ∀ n < 16, hexChar n ∈ hexAlphabet := by decide

theorem hexEncode_data (bs : List Nat) :
    (hexEncode bs).data = bs.flatMap (fun b => [hexChar (b / 16), hexChar (b % 16)]) := rfl

theorem hexEncode_length (bs : List Nat) : (hexEncode bs).length = 2 * bs.length := by
  show (bs.flatMap (fun b => [hexChar (b / 16), hexChar (b % 16)])).length = 2 * bs.length
  induction bs with
  | nil => rfl
  | cons b t ih =>
    simp only [List.flatMap_cons, List.length_append, List.length_cons, List.length_nil, ih]
    omega

theorem hexEncode_mem (bs : List Nat) (h : ∀ b ∈ bs, b < 256) :
    ∀ c ∈ (hexEncode bs).data, c ∈ hexAlphabet := by
  intro c hc
  rw [hexEncode_data] at hc
  rcases List.mem_flatMap.1 hc with ⟨b, hb, hcb⟩
  have hblt : b < 256 := h b hb
  rcases List.mem_cons.1 hcb with h1 | h1
  · exact h1 ▸ hexChar_mem (b / 16) (by omega)
  · rcases List.mem_cons.1 h1 with h2 | h2
    · exact h2 ▸ hexChar_mem (b % 16) (by omega)
    · exact absurd h2 (List.not_mem_nil c)

theorem addressOf_length (obj : GitObject) : (addressOf obj).length = 40 := by
  show (hexEncode (sha1 (encodeFrame obj.Kind obj.Data))).length = 40
  rw [hexEncode_length, sha1_length]

theorem strTake_length (n : Nat) (s : String) : (strTake n s).length = min n s.length := by
  show (s.data.take n).length = min n s.data.length
  exact List.length_take n s.data

theorem strDrop_length (n : Nat) (s : String) : (strDrop n s).length = s.length - n := by
  show (s.data.drop n).length = s.data.length - n
  exact List.length_drop n s.data

theorem itoa_ofNat (m : Nat) : itoa (Int.ofNat m) = natDigits m := by
  have h : ¬(Int.ofNat m < 0) := by simp only [Int.ofNat_eq_natCast]; omega
  simp [itoa, h, natDigits]

/-! ## The claims -/

/-- C1 (counterexample): decoding the encoded frame of kind "blob" and
payload "hello" yields the size field "4" (byte 52), whose decimal
value 4 differs from the payload byte length 5, so the claimed
round-trip `Decode(Encode(kind, payload)) = (kind, len(payload),
payload)` fails at this input. -/
theorem c1_roundtrip_counterexample :
    decodeFrame (encodeFrame [98, 108, 111, 98] [104, 101, 108, 108, 111]) =
      GoOutcome.ret ⟨[98, 108, 111, 98], [52], [104, 101, 108, 108, 111]⟩ none ∧
    decVal [52] ≠ ([104, 101, 108, 108, 111] : List Nat).length := by
  decide

/-- C1 (amended): for every pair (kind, payload) where kind contains no
space and no null byte, decoding the encoded frame returns the
original kind and the original payload verbatim, and a size field
holding the ASCII decimal rendering of len(payload) - 1 (one less than
the exact byte length, due to the off-by-one in Write). -/
theorem c1_roundtrip_amended (kind data : List Nat)
    (hks : ∀ b ∈ kind, b ≠ 32) (hkn : ∀ b ∈ kind, b ≠ 0) :
    decodeFrame (encodeFrame kind data) =
      GoOutcome.ret ⟨kind, itoa (Int.ofNat data.length - 1), data⟩ none :=
  decodeFrame_encodeFrame kind data hks hkn

/-- Witness for C1 (amended) at kind "blob", payload "hello". -/
theorem c1_roundtrip_amended_witness :
    decodeFrame (encodeFrame [98, 108, 111, 98] [104, 101, 108, 108, 111]) =
      GoOutcome.ret
        ⟨[98, 108, 111, 98],
         itoa (Int.ofNat ([104, 101, 108, 108, 111] : List Nat).length - 1),
         [104, 101, 108, 108, 111]⟩ none :=
  c1_roundtrip_amended [98, 108, 111, 98] [104, 101, 108, 108, 111] (by decide) (by decide)

/-- C2: for every GitObject, the encoded frame splits as kind, space,
size bytes, null, data, where the size bytes are the ASCII decimal
rendering of len(Data) - 1: the literal "-1" (bytes 45, 49) when Data
is empty, and decimal digits of value len(Data) - 1 otherwise. -/
theorem c2_size_off_by_one (obj : GitObject) :
    ∃ sz, encodeFrame obj.Kind obj.Data = obj.Kind ++ [32] ++ sz ++ [0] ++ obj.Data ∧
      (obj.Data.length = 0 → sz = [45, 49]) ∧
      (0 < obj.Data.length →
        (∀ b ∈ sz, 48 ≤ b ∧ b ≤ 57) ∧ decVal sz = obj.Data.length - 1) := by
  refine ⟨itoa (Int.ofNat obj.Data.length - 1), rfl, ?_, ?_⟩
  · intro h0
    rw [h0]
    decide
  · intro hpos
    have he : Int.ofNat obj.Data.length - 1 = Int.ofNat (obj.Data.length - 1) := by
      simp only [Int.ofNat_eq_natCast]
      omega
    rw [he, itoa_ofNat]
    exact ⟨natDigits_bounds _, decVal_natDigits _⟩

/-- Witness for C2 at the object with kind "blob", empty Size field and
payload "hi", and at the empty-payload object. -/
theorem c2_size_off_by_one_witness :
    (∃ sz, encodeFrame ([98] : List Nat) [104, 105] = [98] ++ [32] ++ sz ++ [0] ++ [104, 105] ∧
      (([104, 105] : List Nat).length = 0 → sz = [45, 49]) ∧
      (0 < ([104, 105] : List Nat).length →
        (∀ b ∈ sz, 48 ≤ b ∧ b ≤ 57) ∧ decVal sz = ([104, 105] : List Nat).length - 1)) ∧
    (∃ sz, encodeFrame ([98] : List Nat) [] = [98] ++ [32] ++ sz ++ [0] ++ [] ∧
      (([] : List Nat).length = 0 → sz = [45, 49]) ∧
      (0 < ([] : List Nat).length →
        (∀ b ∈ sz, 48 ≤ b ∧ b ≤ 57) ∧ decVal sz = ([] : List Nat).length - 1)) :=
  ⟨c2_size_off_by_one ⟨[98], [], [104, 105]⟩, c2_size_off_by_one ⟨[98], [], []⟩⟩

/-- C3 (counterexample): writing the object with kind "blob" and the
binary payload [0, 32, 7] (length 3) and reading it back yields the
size field "2" (byte 50), of decimal value 2 rather than the payload
length 3, so the claimed store round-trip with size = len(payload)
fails at this input. -/
theorem c3_store_roundtrip_counterexample :
    ReadObject (Write ⟨[98, 108, 111, 98], [], [0, 32, 7]⟩ "root" []).2
        (writePath ⟨[98, 108, 111, 98], [], [0, 32, 7]⟩ "root") =
      GoOutcome.ret ⟨[98, 108, 111, 98], [50], [0, 32, 7]⟩ none ∧
    decVal [50] ≠ ([0, 32, 7] : List Nat).length := by
  constructor
  · rw [ReadObject_Write ⟨[98, 108, 111, 98], [], [0, 32, 7]⟩ "root" [] (by decide) (by decide)]
    decide
  · decide

/-- C3 (amended): for every kind free of space and null bytes and every
binary payload (embedded null and space bytes included), writing to a
store root and reading the written file back yields the original kind
and payload verbatim, and a size field holding the ASCII decimal
rendering of len(payload) - 1 (not len(payload)). -/
theorem c3_store_roundtrip_amended (kind sz0 data : List Nat) (gitdir : String) (fs : FS)
    (hks : ∀ b ∈ kind, b ≠ 32) (hkn : ∀ b ∈ kind, b ≠ 0) :
    ReadObject (Write ⟨kind, sz0, data⟩ gitdir fs).2 (writePath ⟨kind, sz0, data⟩ gitdir) =
      GoOutcome.ret ⟨kind, itoa (Int.ofNat data.length - 1), data⟩ none :=
  ReadObject_Write ⟨kind, sz0, data⟩ gitdir fs hks hkn

/-- Witness for C3 (amended) at kind "blob" and the binary payload
[0, 32, 7] containing a null and a space byte. -/
theorem c3_store_roundtrip_amended_witness :
    ReadObject (Write ⟨[98, 108, 111, 98], [], [0, 32, 7]⟩ "root" []).2
        (writePath ⟨[98, 108, 111, 98], [], [0, 32, 7]⟩ "root") =
      GoOutcome.ret
        ⟨[98, 108, 111, 98], itoa (Int.ofNat ([0, 32, 7] : List Nat).length - 1), [0, 32, 7]⟩
        none :=
  c3_store_roundtrip_amended [98, 108, 111, 98] [] [0, 32, 7] "root" [] (by decide) (by decide)

/-- C4: the address returned by Write is the 40-character lowercase
hexadecimal rendering of the SHA-1 digest computed over the entire
encoded frame, and any two objects with identical Kind and Data bytes
produce the same address (against any store root and filesystem). -/
theorem c4_address_shape_and_determinism (obj : GitObject) (gitdir : String) (fs : FS) :
    (Write obj gitdir fs).1 = hexEncode (sha1 (encodeFrame obj.Kind obj.Data)) ∧
    (Write obj gitdir fs).1.length = 40 ∧
    (∀ c ∈ (Write obj gitdir fs).1.data, c ∈ hexAlphabet) ∧
    (∀ (obj2 : GitObject) (gitdir2 : String) (fs2 : FS), obj2.Kind = obj.Kind →
      obj2.Data = obj.Data → (Write obj2 gitdir2 fs2).1 = (Write obj gitdir fs).1) := by
  refine ⟨rfl, ?_, ?_, ?_⟩
  · show (hexEncode (sha1 (encodeFrame obj.Kind obj.Data))).length = 40
    rw [hexEncode_length, sha1_length]
  · show ∀ c ∈ (hexEncode (sha1 (encodeFrame obj.Kind obj.Data))).data, c ∈ hexAlphabet
    exact hexEncode_mem _ (sha1_lt _)
  · intro obj2 gitdir2 fs2 hk hd
    show hexEncode (sha1 (encodeFrame obj2.Kind obj2.Data)) =
      hexEncode (sha1 (encodeFrame obj.Kind obj.Data))
    rw [hk, hd]

/-- Witness for C4: two objects with equal Kind and Data but different
Size fields and store roots receive equal addresses. -/
theorem c4_address_witness :
    (Write ⟨[98, 108, 111, 98], [53], [104, 101, 108, 108, 111]⟩ "a" []).1 =
      (Write ⟨[98, 108, 111, 98], [], [104, 101, 108, 108, 111]⟩ "b" []).1 :=
  (c4_address_shape_and_determinism ⟨[98, 108, 111, 98], [], [104, 101, 108, 108, 111]⟩
    "b" []).2.2.2 ⟨[98, 108, 111, 98], [53], [104, 101, 108, 108, 111]⟩ "a" [] rfl rfl

/-- C5: after a write, the compressed frame is found at the path
root/objects/(first 2 address characters)/(remaining 38 characters),
and the split is 2 then 38 characters of the 40-character address, for
every object and store root. -/
theorem c5_fanout_path (obj : GitObject) (gitdir : String) (fs : FS) :
    List.lookup
        (gitdir ++ "/objects/" ++ strTake 2 (Write obj gitdir fs).1 ++ "/" ++
          strDrop 2 (Write obj gitdir fs).1)
        (Write obj gitdir fs).2 =
      some (zlibCompress (encodeFrame obj.Kind obj.Data)) ∧
    (Write obj gitdir fs).1.length = 40 ∧
    (strTake 2 (Write obj gitdir fs).1).length = 2 ∧
    (strDrop 2 (Write obj gitdir fs).1).length = 38 := by
  have hlen : (Write obj gitdir fs).1.length = 40 := addressOf_length obj
  refine ⟨?_, hlen, ?_, ?_⟩
  · simp only [Write]
    exact lookup_cons_self _ _ fs
  · rw [strTake_length, hlen]
    decide
  · rw [strDrop_length, hlen]

/-- C6 (code behavior at the failing inputs): on a decompressed frame
with no space byte ("abc"), with a space but no null byte ("a b"), or
with the first null before the first space ([0, 97, 32]), ReadObject
panics on an out-of-range slice instead of returning a MalformedFrame
error: bytes.IndexByte returns -1 (or an inverted pair of indices) and
the subsequent slicing panics. -/
theorem c6_malformed_frame_panics :
    ReadObject [("p1", zlibCompress [97, 98, 99])] "p1" = GoOutcome.panic ∧
    ReadObject [("p2", zlibCompress [97, 32, 98])] "p2" = GoOutcome.panic ∧
    ReadObject [("p3", zlibCompress [0, 97, 32])] "p3" = GoOutcome.panic := by
  decide

/-- C7: when no file exists at the requested path, ReadObject returns
the empty GitObject together with the not-found error, decided by the
existence check alone. -/
theorem c7_not_found (fs : FS) (p : String) (h : List.lookup p fs = none) :
    ReadObject fs p = GoOutcome.ret ⟨[], [], []⟩ (some GoErr.notFound) := by
  simp only [ReadObject, h]

/-- Witness for C7 on the empty filesystem. -/
theorem c7_not_found_witness :
    ReadObject [] "missing" = GoOutcome.ret ⟨[], [], []⟩ (some GoErr.notFound) :=
  c7_not_found [] "missing" rfl

/-- C8: when the file at the path exists but its contents do not
decompress (bad header, truncated stream, or checksum mismatch),
ReadObjectFile propagates the corrupt-object error and returns no
frame bytes (the Except error branch carries no data). -/
theorem c8_corrupt_propagates (fs : FS) (p : String) (data : List Nat)
    (hf : List.lookup p fs = some data) (hz : zlibDecompress data = .error .corrupt) :
    ReadObjectFile fs p = .error .corrupt := by
  simp only [ReadObjectFile, hf]
  exact hz

/-- Witness for C8 at a file holding the non-zlib bytes [1, 2, 3]. -/
theorem c8_corrupt_propagates_witness :
    ReadObjectFile [("p", [1, 2, 3])] "p" = .error .corrupt :=
  c8_corrupt_propagates [("p", [1, 2, 3])] "p" [1, 2, 3] (by decide) (by rfl)

/-- C9 (counterexample): encoding kind "blob" with payload "hello"
does not produce the frame "blob 5\x00hello": the size byte written is
52 ("4"), not 53 ("5"). -/
theorem c9_concrete_counterexample :
    encodeFrame [98, 108, 111, 98] [104, 101, 108, 108, 111] ≠
      [98, 108, 111, 98, 32, 53, 0, 104, 101, 108, 108, 111] := by
  decide

/-- C9 (amended): encoding kind "blob" with payload "hello" produces
exactly the frame "blob 4\x00hello", and ReadObject on the written
file returns ("blob", "4", "hello"). -/
theorem c9_concrete_amended :
    encodeFrame [98, 108, 111, 98] [104, 101, 108, 108, 111] =
      [98, 108, 111, 98, 32, 52, 0, 104, 101, 108, 108, 111] ∧
    ReadObject (Write ⟨[98, 108, 111, 98], [], [104, 101, 108, 108, 111]⟩ "root" []).2
        (writePath ⟨[98, 108, 111, 98], [], [104, 101, 108, 108, 111]⟩ "root") =
      GoOutcome.ret ⟨[98, 108, 111, 98], [52], [104, 101, 108, 108, 111]⟩ none := by
  constructor
  · decide
  · rw [ReadObject_Write ⟨[98, 108, 111, 98], [], [104, 101, 108, 108, 111]⟩ "root" []
      (by decide) (by decide)]
    decide

/-- C10: the Size field of a GitObject has no effect on Write's
observable output: two objects agreeing on Kind and Data produce the
same encoded frame and the same Write result (same returned address,
same path, same file content, same final filesystem). -/
theorem c10_size_has_no_effect (o1 o2 : GitObject) (gitdir : String) (fs : FS)
    (hk : o1.Kind = o2.Kind) (hd : o1.Data = o2.Data) :
    encodeFrame o1.Kind o1.Data = encodeFrame o2.Kind o2.Data ∧
    Write o1 gitdir fs = Write o2 gitdir fs := by
  constructor
  · rw [hk, hd]
  · simp only [Write, hk, hd]

/-- Witness for C10: two objects sharing Kind and Data but holding the
Size fields "" and "99" write identically. -/
theorem c10_size_has_no_effect_witness :
    encodeFrame ([98, 108, 111, 98] : List Nat) [104, 101, 108, 108, 111] =
      encodeFrame ([98, 108, 111, 98] : List Nat) [104, 101, 108, 108, 111] ∧
    Write ⟨[98, 108, 111, 98], [], [104, 101, 108, 108, 111]⟩ "root" [] =
      Write ⟨[98, 108, 111, 98], [57, 57], [104, 101, 108, 108, 111]⟩ "root" [] :=
  c10_size_has_no_effect ⟨[98, 108, 111, 98], [], [104, 101, 108, 108, 111]⟩
    ⟨[98, 108, 111, 98], [57, 57], [104, 101, 108, 108, 111]⟩ "root" [] rfl rfl

end AGit
